import Mathlib

/-!
Shallow embedding of the Solana/Anchor program `sub_tilts_hybrid`
(src/lib.rs of yswa-var/SolMPC-Node), a payment-distribution engine with
four instructions: `set_rules_uri`, `execute_payments`,
`verify_distribution` and `update_rules_hash`, together with theorems
settling the specification claims about it.

Machine integers (`u64`, lamport balances) are modelled as `Nat`; the
summation in the source is `payment_amounts.iter().sum::<u64>()`, a chain
of `u64` additions which in an on-chain release build wraps modulo 2^64,
so it is embedded as a left fold of wrapping addition.  Account keys
(`Pubkey`) are modelled as `Nat`.  Fallible instructions return `Except`;
the host runtime's transaction semantics (a failed instruction leaves
every account exactly as it was before the call) is modelled by the
`run…` wrappers, which expose the observable post-state: the new state on
success, the untouched pre-state on error.
-/

/-- Account address (32-byte public key in the source), modelled as `Nat`. -/
abbrev Pubkey := Nat

/-- A 32-byte digest (`[u8; 32]` in the source), modelled as a list of bytes. -/
abbrev Hash32 := List Nat

/-- The all-zero sentinel `[0u8; 32]`: "no hash registered / unenforced". -/
def zero32 : Hash32 := List.replicate 32 0

/-- `2^64`, the modulus of `u64` arithmetic. -/
def U64MOD : Nat := 2 ^ 64

/-- The `u64` sum `payment_amounts.iter().sum()` of the source: a chain of
`u64` additions, each wrapping modulo `2^64` (on-chain release build,
no overflow check in the source). -/
def u64sum (l : List Nat) : Nat :=
  l.foldl (fun a b => (a + b) % U64MOD) 0

/-- The persisted `RoutingRules` account (src/lib.rs lines 147-152). -/
structure RoutingRules where
  owner : Pubkey
  rules_uri : String
  rules_hash : Hash32
  deriving Repr, DecidableEq

/-- The program's `CustomError` enum (src/lib.rs lines 160-178). -/
inductive CustomError where
  | InvalidTotalPercentage
  | RecipientCountMismatch
  | MathError
  | Unauthorized
  | RecipientMismatch
  | InvalidIndices
  | InvalidTotalAmount
  | RulesHashMismatch
  deriving Repr, DecidableEq

/-- Any error an instruction of this program can abort with: one of the
program's `CustomError`s, a failure of the system-program transfer invoked
by `execute_payments` (insufficient payer balance, or a recipient account
that cannot receive a system transfer), or the system error raised by
Anchor's `init` when the target account already exists. -/
inductive ProgErr where
  | custom : CustomError → ProgErr
  | insufficientFunds
  | invalidRecipient
  | accountAlreadyInUse
  deriving Repr, DecidableEq

/-- Lamport balances of the ledger, one `u64` balance per account. -/
abbrev Balances := Pubkey → Nat

/-- Point update of a balance map. -/
def setBal (bal : Balances) (k : Pubkey) (v : Nat) : Balances :=
  fun x => if x = k then v else bal x

/-- One `system_instruction::transfer(payer, recipient, amount)` executed via
`invoke` (src/lib.rs lines 50-58).  `canReceive` models which accounts the
system program accepts as transfer destinations (a transfer into an
account owned by another program fails); a transfer also fails when the
source balance is insufficient. -/
def transferLamports (canReceive : Pubkey → Bool) (bal : Balances)
    (src dst : Pubkey) (amt : Nat) : Except ProgErr Balances :=
  if ¬ canReceive dst then .error .invalidRecipient
  else if bal src < amt then .error .insufficientFunds
  else
    let b1 := setBal bal src (bal src - amt)
    .ok (setBal b1 dst (b1 dst + amt))

/-- The transfer loop of `execute_payments` (src/lib.rs lines 47-59): one
transfer per `(amount, recipient)` pair, in index order; the first failing
transfer aborts the instruction via `?`. -/
def payLoop (canReceive : Pubkey → Bool) (payer : Pubkey) :
    List (Nat × Pubkey) → Balances → Except ProgErr Balances
  | [], bal => .ok bal
  | (amt, r) :: rest, bal =>
    match transferLamports canReceive bal payer r amt with
    | .error e => .error e
    | .ok b => payLoop canReceive payer rest b

/-- The `execute_payments` instruction (src/lib.rs lines 25-62) together
with its Anchor account constraints (lines 126-139): the `has_one = owner`
constraint on `routing_rules` is checked first (error `Unauthorized`),
then the handler checks recipient count, then the claimed total against
the `u64` sum, then runs the transfer loop.  `recipients` are the
`remaining_accounts`; `ownerAcc` is the caller-supplied `owner` account. -/
def execute_payments (canReceive : Pubkey → Bool) (rules : RoutingRules)
    (ownerAcc payer : Pubkey) (payment_amounts : List Nat)
    (total_amount : Nat) (recipients : List Pubkey) (bal : Balances) :
    Except ProgErr Balances :=
  if rules.owner ≠ ownerAcc then .error (.custom .Unauthorized)
  else if recipients.length ≠ payment_amounts.length then
    .error (.custom .RecipientCountMismatch)
  else if u64sum payment_amounts ≠ total_amount then
    .error (.custom .InvalidTotalAmount)
  else payLoop canReceive payer (payment_amounts.zip recipients) bal

/-- Observable effect of an `execute_payments` call under the host ledger's
transaction semantics: on success the new balances, on error the pre-call
balances (the whole transaction is rolled back) together with the error. -/
def runExecutePayments (canReceive : Pubkey → Bool) (rules : RoutingRules)
    (ownerAcc payer : Pubkey) (payment_amounts : List Nat)
    (total_amount : Nat) (recipients : List Pubkey) (bal : Balances) :
    Balances × Option ProgErr :=
  match execute_payments canReceive rules ownerAcc payer payment_amounts
      total_amount recipients bal with
  | .ok b => (b, none)
  | .error e => (bal, some e)

/-- The `verify_distribution` instruction (src/lib.rs lines 65-88): if the
stored `rules_hash` is not the all-zero sentinel it must equal the
submitted `rules_hash` (else `RulesHashMismatch`); then the `u64` sum of
`payment_amounts` must equal `total_amount` (else `InvalidTotalAmount`).
No state is mutated. -/
def verify_distribution (rules : RoutingRules) (payment_amounts : List Nat)
    (rules_hash : Hash32) (total_amount : Nat) : Except ProgErr Unit :=
  if rules.rules_hash ≠ zero32 ∧ rules.rules_hash ≠ rules_hash then
    .error (.custom .RulesHashMismatch)
  else if u64sum payment_amounts ≠ total_amount then
    .error (.custom .InvalidTotalAmount)
  else .ok ()

/-- The `update_rules_hash` instruction (src/lib.rs lines 91-99) with its
Anchor constraints (lines 115-124): `has_one = owner` requires the signing
`caller` to equal the stored `owner` (error `Unauthorized`), then the
handler overwrites `rules_hash` unconditionally. -/
def update_rules_hash (rules : RoutingRules) (caller : Pubkey)
    (rules_hash : Hash32) : Except ProgErr RoutingRules :=
  if rules.owner ≠ caller then .error (.custom .Unauthorized)
  else .ok { rules with rules_hash := rules_hash }

/-- Observable effect of `update_rules_hash`: the stored record after the
call (unchanged on error, by transaction rollback) and the error if any. -/
def runUpdateRulesHash (rules : RoutingRules) (caller : Pubkey)
    (rules_hash : Hash32) : RoutingRules × Option ProgErr :=
  match update_rules_hash rules caller rules_hash with
  | .ok r => (r, none)
  | .error e => (rules, some e)

/-- The ledger's `RoutingRules` accounts: at each address, the initialized
record if any.  The `routing_rules` account of `SetRulesUri` carries no
`seeds` constraint, so its address is chosen by the caller, not derived
from the owner. -/
abbrev RulesLedger := Pubkey → Option RoutingRules

/-- Point update of the rules ledger. -/
def setRec (st : RulesLedger) (addr : Pubkey) (v : Option RoutingRules) :
    RulesLedger :=
  fun x => if x = addr then v else st x

/-- The `set_rules_uri` instruction (src/lib.rs lines 12-21) with its
Anchor constraints (lines 102-113): `init` fails when the account at
`addr` already exists; otherwise a fresh zero-initialized record is
created and the handler stores the signing owner's key and the URI
(`rules_hash` stays all-zero). -/
def set_rules_uri (st : RulesLedger) (addr : Pubkey) (owner : Pubkey)
    (rules_uri : String) : Except ProgErr RulesLedger :=
  match st addr with
  | some _ => .error .accountAlreadyInUse
  | none => .ok (setRec st addr (some ⟨owner, rules_uri, zero32⟩))

/-- Observable effect of `set_rules_uri`: ledger after the call (unchanged
on error) and the error if any. -/
def runSetRulesUri (st : RulesLedger) (addr : Pubkey) (owner : Pubkey)
    (rules_uri : String) : RulesLedger × Option ProgErr :=
  match set_rules_uri st addr owner rules_uri with
  | .ok st' => (st', none)
  | .error e => (st, some e)

/-- Modelled from the spec: the persisted `Policy` record of the
PolicyStore component (spec §3, §4.1), which is absent from src/lib.rs
(only its error code `CustomError::InvalidTotalPercentage` is declared
there): owner key, ten percentage weights, ten (identity, amount)
receiver pairs, sub-policy references, and the creation flag. -/
structure Policy where
  owner : Pubkey
  weights : List Nat
  receivers : List (Pubkey × Nat)
  subPolicies : List String
  initFlag : Bool
  deriving Repr, DecidableEq

/-- The ledger's `Policy` records, one per owner (spec §6: record
addressing is derived from the owner for PolicyStore). -/
abbrev PolicyLedger := Pubkey → Option Policy

/-- Modelled from the spec: `create_policy` / `createOrGetPolicy`
(spec §4.1, §6), absent from src/lib.rs.  Fails with the declared error
`InvalidTotalPercentage` (the spec's `InvalidWeights`) when the weights
do not sum to 100; otherwise creates the record for `owner` if absent
(setting the creation flag), and is a no-op success if one exists
(idempotent create). -/
def create_policy (st : PolicyLedger) (owner : Pubkey) (weights : List Nat)
    (receivers : List (Pubkey × Nat)) (subPolicies : List String) :
    Except ProgErr PolicyLedger :=
  if weights.sum ≠ 100 then .error (.custom .InvalidTotalPercentage)
  else
    match st owner with
    | some _ => .ok st
    | none =>
      .ok (fun x => if x = owner then
            some ⟨owner, weights, receivers, subPolicies, true⟩
          else st x)

/-- Observable effect of `create_policy`: ledger after the call (unchanged
on error) and the error if any. -/
def runCreatePolicy (st : PolicyLedger) (owner : Pubkey)
    (weights : List Nat) (receivers : List (Pubkey × Nat))
    (subPolicies : List String) : PolicyLedger × Option ProgErr :=
  match create_policy st owner weights receivers subPolicies with
  | .ok st' => (st', none)
  | .error e => (st, some e)

/-! ## Helper lemmas -/

/-- The transfer loop only ever fails with a transfer error, never with a
`CustomError`. -/
theorem payLoop_error_is_transfer (canReceive : Pubkey → Bool)
    (payer : Pubkey) (ps : List (Nat × Pubkey)) (bal : Balances)
    (e : ProgErr) (h : payLoop canReceive payer ps bal = .error e) :
    e = .insufficientFunds ∨ e = .invalidRecipient := by
  induction ps generalizing bal with
  | nil => simp [payLoop] at h
  | cons p rest ih =>
    obtain ⟨amt, r⟩ := p
    rw [payLoop] at h
    rcases htr : transferLamports canReceive bal payer r amt with e' | b
    · rw [htr] at h
      cases h
      unfold transferLamports at htr
      split at htr
      · exact Or.inr (by cases htr; rfl)
      · split at htr
        · exact Or.inl (by cases htr; rfl)
        · cases htr
    · rw [htr] at h
      exact ih b h

/-- When the mathematical sum fits in a `u64`, the wrapping fold computes
it exactly. -/
theorem u64sum_eq_sum_of_lt (l : List Nat) (h : l.sum < U64MOD) :
    u64sum l = l.sum := by
  have key : ∀ (l : List Nat) (a : Nat), a + l.sum < U64MOD →
      l.foldl (fun a b => (a + b) % U64MOD) a = a + l.sum := by
    intro l
    induction l with
    | nil => intro a _; simp
    | cons x xs ih =>
      intro a ha
      simp only [List.sum_cons] at ha
      simp only [List.foldl_cons]
      have hax : a + x < U64MOD := by omega
      rw [Nat.mod_eq_of_lt hax, ih (a + x) (by omega)]
      rw [List.sum_cons]
      omega
  have := key l 0 (by simpa using h)
  simpa [u64sum] using this

/-! ## Claim theorems -/

/-- Claim C1: for every call to `execute_payments` in which some individual
transfer in the loop fails (insufficient funds or invalid recipient), the
call returns the transfer error and the entire batch is rolled back: no
recipient balance and no payer balance differs from its pre-call value. -/
theorem execute_payments_atomic_on_transfer_failure
    (canReceive : Pubkey → Bool) (rules : RoutingRules)
    (ownerAcc payer : Pubkey) (amounts : List Nat) (total : Nat)
    (recipients : List Pubkey) (bal : Balances) (e : ProgErr)
    (hown : rules.owner = ownerAcc)
    (hcnt : recipients.length = amounts.length)
    (hsum : u64sum amounts = total)
    (hfail : payLoop canReceive payer (amounts.zip recipients) bal
      = .error e) :
    (e = .insufficientFunds ∨ e = .invalidRecipient) ∧
    runExecutePayments canReceive rules ownerAcc payer amounts total
      recipients bal = (bal, some e) := by
  refine ⟨payLoop_error_is_transfer _ _ _ _ _ hfail, ?_⟩
  simp [runExecutePayments, execute_payments, hown, hcnt, hsum, hfail]

/-- Witness for C1: a batch of 3 recipients in which the 2nd transfer fails
(the 2nd recipient cannot receive a system transfer); the call reports the
transfer error and the observable balances are the pre-call balances. -/
theorem execute_payments_atomic_on_transfer_failure_witness :
    payLoop (fun k => k != 20) 1 (([5, 7, 1] : List Nat).zip [10, 20, 30])
      (fun k => if k == 1 then 100 else 0) = .error .invalidRecipient ∧
    runExecutePayments (fun k => k != 20) ⟨5, "u", zero32⟩ 5 1 [5, 7, 1] 13
      [10, 20, 30] (fun k => if k == 1 then 100 else 0)
      = ((fun k => if k == 1 then 100 else 0), some .invalidRecipient) :=
  ⟨by rfl,
   (execute_payments_atomic_on_transfer_failure (fun k => k != 20)
      ⟨5, "u", zero32⟩ 5 1 [5, 7, 1] 13 [10, 20, 30]
      (fun k => if k == 1 then 100 else 0) .invalidRecipient
      rfl rfl (by rfl) (by rfl)).2⟩

/-- Counterexample to C2: with a non-zero stored `rules_hash` (which no part
of the submitted plan matches — `execute_payments` does not even take a
hash argument), the call succeeds and moves funds: the recipient's balance
changes from 0 to 5, so no hash-binding validation gated the transfers. -/
theorem execute_payments_ignores_stored_hash_cex :
    (1 :: List.replicate 31 0 : Hash32) ≠ zero32 ∧
    (runExecutePayments (fun _ => true) ⟨5, "u", 1 :: List.replicate 31 0⟩
      5 1 [5] 5 [10] (fun k => if k == 1 then 100 else 0)).2 = none ∧
    (runExecutePayments (fun _ => true) ⟨5, "u", 1 :: List.replicate 31 0⟩
      5 1 [5] 5 [10] (fun k => if k == 1 then 100 else 0)).1 10 = 5 ∧
    (fun (k : Pubkey) => if k == 1 then 100 else 0) 10 = 0 :=
  ⟨by decide, by rfl, by rfl, by rfl⟩

/-- Claim C2 (amended): `execute_payments` enforces the structural
validations (recipient count, claimed total) before any transfer, but
performs no hash-binding validation: its behaviour is identical for every
value of the stored `rules_hash`; hash checking exists only in
`verify_distribution`. -/
theorem execute_payments_structural_only
    (canReceive : Pubkey → Bool) (o : Pubkey) (u : String)
    (h1 h2 : Hash32) (ownerAcc payer : Pubkey) (amounts : List Nat)
    (total : Nat) (recipients : List Pubkey) (bal : Balances) :
    execute_payments canReceive ⟨o, u, h1⟩ ownerAcc payer amounts total
        recipients bal
      = execute_payments canReceive ⟨o, u, h2⟩ ownerAcc payer amounts total
        recipients bal
    ∧ (o = ownerAcc → recipients.length ≠ amounts.length →
        runExecutePayments canReceive ⟨o, u, h1⟩ ownerAcc payer amounts
          total recipients bal
          = (bal, some (.custom .RecipientCountMismatch)))
    ∧ (o = ownerAcc → recipients.length = amounts.length →
        u64sum amounts ≠ total →
        runExecutePayments canReceive ⟨o, u, h1⟩ ownerAcc payer amounts
          total recipients bal
          = (bal, some (.custom .InvalidTotalAmount))) := by
  refine ⟨rfl, ?_, ?_⟩
  · intro ho hc
    simp [runExecutePayments, execute_payments, ho, hc]
  · intro ho hc hs
    simp [runExecutePayments, execute_payments, ho, hc, hs]

/-- Witness for the amended C2: at a concrete call with a non-zero stored
hash, the behaviour equals the all-zero-hash behaviour, and a recipient
count mismatch aborts with `RecipientCountMismatch` before any transfer. -/
theorem execute_payments_structural_only_witness :
    (execute_payments (fun _ => true) ⟨5, "u", 1 :: List.replicate 31 0⟩
        5 1 [5] 5 [] (fun k => if k == 1 then 100 else 0)
      = execute_payments (fun _ => true) ⟨5, "u", zero32⟩
        5 1 [5] 5 [] (fun k => if k == 1 then 100 else 0))
    ∧ runExecutePayments (fun _ => true) ⟨5, "u", 1 :: List.replicate 31 0⟩
        5 1 [5] 5 [] (fun k => if k == 1 then 100 else 0)
      = ((fun k => if k == 1 then 100 else 0),
         some (.custom .RecipientCountMismatch)) :=
  ⟨(execute_payments_structural_only (fun _ => true) 5 "u"
      (1 :: List.replicate 31 0) zero32 5 1 [5] 5 []
      (fun k => if k == 1 then 100 else 0)).1,
   (execute_payments_structural_only (fun _ => true) 5 "u"
      (1 :: List.replicate 31 0) zero32 5 1 [5] 5 []
      (fun k => if k == 1 then 100 else 0)).2.1 rfl (by decide)⟩

/-- Claim C3: if the stored `rules_hash` is the all-zero sentinel, the hash
check is skipped and `verify_distribution` succeeds for every submitted
hash as soon as the structural (total) check passes; if the stored hash is
non-zero, `verify_distribution` fails with `RulesHashMismatch` unless the
submitted hash is byte-identical to the stored one. -/
theorem verify_distribution_hash_gating (rules : RoutingRules)
    (amounts : List Nat) (submitted : Hash32) (total : Nat) :
    (rules.rules_hash = zero32 → u64sum amounts = total →
      verify_distribution rules amounts submitted total = .ok ())
    ∧ (rules.rules_hash ≠ zero32 → submitted ≠ rules.rules_hash →
      verify_distribution rules amounts submitted total
        = .error (.custom .RulesHashMismatch)) := by
  constructor
  · intro h0 hs
    simp [verify_distribution, h0, hs]
  · intro h0 hne
    have h' : rules.rules_hash ≠ submitted := fun h => hne h.symm
    simp [verify_distribution, h0, h']

/-- Witness for C3: with an unset (all-zero) stored hash, a submitted
non-matching hash verifies as long as the total matches; with a non-zero
stored hash, a differing submitted hash fails with `RulesHashMismatch`. -/
theorem verify_distribution_hash_gating_witness :
    verify_distribution ⟨5, "u", zero32⟩ [2, 3] (1 :: List.replicate 31 0) 5
      = .ok ()
    ∧ verify_distribution ⟨5, "u", 1 :: List.replicate 31 0⟩ [2, 3] zero32 5
      = .error (.custom .RulesHashMismatch) :=
  ⟨(verify_distribution_hash_gating ⟨5, "u", zero32⟩ [2, 3]
      (1 :: List.replicate 31 0) 5).1 rfl (by rfl),
   (verify_distribution_hash_gating ⟨5, "u", 1 :: List.replicate 31 0⟩
      [2, 3] zero32 5).2 (by decide) (by decide)⟩

/-- Claim C4: when the number of supplied recipient accounts differs from
the length of `payment_amounts`, `execute_payments` fails with
`RecipientCountMismatch` and no transfer occurs: the observable balances
equal the pre-call balances. -/
theorem execute_payments_recipient_count_mismatch
    (canReceive : Pubkey → Bool) (rules : RoutingRules)
    (ownerAcc payer : Pubkey) (amounts : List Nat) (total : Nat)
    (recipients : List Pubkey) (bal : Balances)
    (hown : rules.owner = ownerAcc)
    (hcnt : recipients.length ≠ amounts.length) :
    runExecutePayments canReceive rules ownerAcc payer amounts total
      recipients bal = (bal, some (.custom .RecipientCountMismatch)) := by
  simp [runExecutePayments, execute_payments, hown, hcnt]

/-- Witness for C4: two amounts but only one recipient account. -/
theorem execute_payments_recipient_count_mismatch_witness :
    ([10] : List Pubkey).length ≠ ([5, 7] : List Nat).length ∧
    runExecutePayments (fun _ => true) ⟨5, "u", zero32⟩ 5 1 [5, 7] 12 [10]
      (fun k => if k == 1 then 100 else 0)
      = ((fun k => if k == 1 then 100 else 0),
         some (.custom .RecipientCountMismatch)) :=
  ⟨by decide,
   execute_payments_recipient_count_mismatch (fun _ => true)
     ⟨5, "u", zero32⟩ 5 1 [5, 7] 12 [10]
     (fun k => if k == 1 then 100 else 0) rfl (by decide)⟩

/-- Claim C5: when the sum of `payment_amounts` (which, being a `u64` sum
that does not overflow, equals the mathematical sum) differs from
`total_amount`, `execute_payments` fails with `InvalidTotalAmount` and no
transfer occurs. -/
theorem execute_payments_invalid_total
    (canReceive : Pubkey → Bool) (rules : RoutingRules)
    (ownerAcc payer : Pubkey) (amounts : List Nat) (total : Nat)
    (recipients : List Pubkey) (bal : Balances)
    (hown : rules.owner = ownerAcc)
    (hcnt : recipients.length = amounts.length)
    (hov : amounts.sum < U64MOD)
    (hne : amounts.sum ≠ total) :
    runExecutePayments canReceive rules ownerAcc payer amounts total
      recipients bal = (bal, some (.custom .InvalidTotalAmount)) := by
  have hs : u64sum amounts ≠ total := by
    rw [u64sum_eq_sum_of_lt amounts hov]; exact hne
  simp [runExecutePayments, execute_payments, hown, hcnt, hs]

/-- Witness for C5: amounts summing to 12 against a claimed total of 13. -/
theorem execute_payments_invalid_total_witness :
    ([5, 7] : List Nat).sum ≠ 13 ∧
    runExecutePayments (fun _ => true) ⟨5, "u", zero32⟩ 5 1 [5, 7] 13
      [10, 20] (fun k => if k == 1 then 100 else 0)
      = ((fun k => if k == 1 then 100 else 0),
         some (.custom .InvalidTotalAmount)) :=
  ⟨by decide,
   execute_payments_invalid_total (fun _ => true) ⟨5, "u", zero32⟩ 5 1
     [5, 7] 13 [10, 20] (fun k => if k == 1 then 100 else 0) rfl rfl
     (by decide) (by decide)⟩

/-- Claim C6 (behaviour at the failing input): the summation in the source
is a plain `u64` fold that wraps modulo `2^64` in an on-chain release
build; `CustomError::MathError` is declared (src/lib.rs lines 166-167) but
never raised.  For `payment_amounts = [2^63, 2^63]` the true sum `2^64`
exceeds the `u64` maximum, yet the wrapped sum is `0`, so with
`total_amount = 0` the total check passes: `verify_distribution` returns
success, and `execute_payments` passes validation and reaches the transfer
loop (failing there only for insufficient payer funds) — no `MathError` is
ever produced. -/
theorem summation_wraps_silently_no_math_error :
    2 ^ 63 + 2 ^ 63 > 2 ^ 64 - 1 ∧
    u64sum [2 ^ 63, 2 ^ 63] = 0 ∧
    verify_distribution ⟨5, "u", zero32⟩ [2 ^ 63, 2 ^ 63] zero32 0
      = .ok () ∧
    runExecutePayments (fun _ => true) ⟨5, "u", zero32⟩ 5 1
      [2 ^ 63, 2 ^ 63] 0 [10, 20] (fun k => if k == 1 then 100 else 0)
      = ((fun k => if k == 1 then 100 else 0), some .insufficientFunds) :=
  ⟨by decide, by decide, by rfl, by rfl⟩

/-- Claim C7: `update_rules_hash` called by an identity other than the
stored `owner` fails with `Unauthorized` and leaves the stored record
(in particular `rules_hash`) unchanged; called by the stored owner, it
overwrites `rules_hash` unconditionally with the new value. -/
theorem update_rules_hash_owner_only (rules : RoutingRules)
    (caller : Pubkey) (h : Hash32) :
    (caller ≠ rules.owner →
      runUpdateRulesHash rules caller h
        = (rules, some (.custom .Unauthorized)))
    ∧ (caller = rules.owner →
      runUpdateRulesHash rules caller h
        = ({ rules with rules_hash := h }, none)) := by
  constructor
  · intro hne
    have h' : rules.owner ≠ caller := fun hh => hne hh.symm
    simp [runUpdateRulesHash, update_rules_hash, h']
  · intro heq
    simp [runUpdateRulesHash, update_rules_hash, heq]

/-- Witness for C7: a non-owner caller is rejected with the record intact;
the owner overwrites the stored hash. -/
theorem update_rules_hash_owner_only_witness :
    (7 : Pubkey) ≠ (5 : Pubkey) ∧
    runUpdateRulesHash ⟨5, "u", zero32⟩ 7 (1 :: List.replicate 31 0)
      = (⟨5, "u", zero32⟩, some (.custom .Unauthorized)) ∧
    runUpdateRulesHash ⟨5, "u", zero32⟩ 5 (1 :: List.replicate 31 0)
      = (⟨5, "u", 1 :: List.replicate 31 0⟩, none) :=
  ⟨by decide,
   (update_rules_hash_owner_only ⟨5, "u", zero32⟩ 7
      (1 :: List.replicate 31 0)).1 (by decide),
   (update_rules_hash_owner_only ⟨5, "u", zero32⟩ 5
      (1 :: List.replicate 31 0)).2 rfl⟩

/-- Claim C8: for every weight vector of length 10, `create_policy`
succeeds exactly when the weights sum to 100; for any other sum it fails
with the `InvalidWeights` error (declared as
`CustomError::InvalidTotalPercentage`) and no `Policy` record is created
(the policy ledger is unchanged). -/
theorem create_policy_weights_gate (st : PolicyLedger) (o : Pubkey)
    (w : List Nat) (recv : List (Pubkey × Nat)) (subs : List String)
    (_hlen : w.length = 10) :
    ((∃ st', create_policy st o w recv subs = .ok st') ↔ w.sum = 100)
    ∧ (w.sum ≠ 100 →
        runCreatePolicy st o w recv subs
          = (st, some (.custom .InvalidTotalPercentage))) := by
  constructor
  · constructor
    · rintro ⟨st', hst'⟩
      by_contra hw
      simp [create_policy, hw] at hst'
    · intro hw
      unfold create_policy
      rw [if_neg (by simp [hw])]
      cases hst : st o
      · exact ⟨_, rfl⟩
      · exact ⟨st, rfl⟩
  · intro hw
    simp [runCreatePolicy, create_policy, hw]

/-- Witness for C8: all weights 10 (sum 100) creates the record; all
weights 9 (sum 90) fails with `InvalidTotalPercentage`, ledger unchanged. -/
theorem create_policy_weights_gate_witness :
    (List.replicate 10 10 : List Nat).length = 10 ∧
    (∃ st', create_policy (fun _ => none) 5 (List.replicate 10 10) [] []
      = .ok st') ∧
    runCreatePolicy (fun _ => none) 5 (List.replicate 10 9) [] []
      = ((fun _ => none), some (.custom .InvalidTotalPercentage)) :=
  ⟨by decide,
   (create_policy_weights_gate (fun _ => none) 5 (List.replicate 10 10)
      [] [] (by decide)).1.mpr (by decide),
   (create_policy_weights_gate (fun _ => none) 5 (List.replicate 10 9)
      [] [] (by decide)).2 (by decide)⟩

/-- Counterexample to C9: the `routing_rules` account of `SetRulesUri` has
no `seeds` constraint, so its address is caller-chosen rather than derived
from the owner: the same owner (key 5) registers twice at two distinct
addresses (100 and 200) and both calls succeed, leaving two initialized
records for that one owner — the second registration for the same owner
does not fail. -/
theorem set_rules_uri_two_records_same_owner :
    (runSetRulesUri (fun _ => none) 100 5 "u1").2 = none ∧
    (runSetRulesUri (runSetRulesUri (fun _ => none) 100 5 "u1").1
      200 5 "u2").2 = none ∧
    (runSetRulesUri (runSetRulesUri (fun _ => none) 100 5 "u1").1
      200 5 "u2").1 100 = some ⟨5, "u1", zero32⟩ ∧
    (runSetRulesUri (runSetRulesUri (fun _ => none) 100 5 "u1").1
      200 5 "u2").1 200 = some ⟨5, "u2", zero32⟩ :=
  ⟨rfl, rfl, rfl, rfl⟩

/-- Claim C9 (amended): `set_rules_uri` is a strict create per record
address: registering into an address that already holds a record fails
(Anchor `init`) with the ledger unchanged, and registering into a fresh
address stores the owner, the locator and an all-zero hash.  Because the
record address is caller-chosen (no `seeds` constraint ties it to the
owner), this does not bound the number of records per owner. -/
theorem set_rules_uri_strict_create_per_address (st : RulesLedger)
    (addr o : Pubkey) (u : String) :
    ((st addr).isSome = true →
      runSetRulesUri st addr o u = (st, some .accountAlreadyInUse))
    ∧ (st addr = none →
      set_rules_uri st addr o u
        = .ok (setRec st addr (some ⟨o, u, zero32⟩))) := by
  constructor
  · intro hs
    rcases ho : st addr with _ | r
    · rw [ho] at hs; simp at hs
    · simp [runSetRulesUri, set_rules_uri, ho]
  · intro hn
    simp [set_rules_uri, hn]

/-- Witness for the amended C9: re-registering at an occupied address 100
fails with the ledger unchanged; registering at a fresh address succeeds. -/
theorem set_rules_uri_strict_create_per_address_witness :
    ((fun a => if a == 100 then
        some (⟨5, "u1", zero32⟩ : RoutingRules) else none) 100).isSome
      = true ∧
    runSetRulesUri (fun a => if a == 100 then
        some (⟨5, "u1", zero32⟩ : RoutingRules) else none) 100 7 "u2"
      = ((fun a => if a == 100 then
          some (⟨5, "u1", zero32⟩ : RoutingRules) else none),
         some .accountAlreadyInUse) :=
  ⟨by rfl,
   (set_rules_uri_strict_create_per_address
      (fun a => if a == 100 then
        some (⟨5, "u1", zero32⟩ : RoutingRules) else none)
      100 7 "u2").1 (by rfl)⟩

/-- Claim C10: a successful `update_rules_hash` changes only the
`rules_hash` field: the stored `owner` and `rules_uri` are unchanged, and
the new hash is stored verbatim — any 32-byte value, the all-zero sentinel
included. -/
theorem update_rules_hash_frame (rules : RoutingRules) (caller : Pubkey)
    (h : Hash32) (r : RoutingRules)
    (hok : update_rules_hash rules caller h = .ok r) :
    r.owner = rules.owner ∧ r.rules_uri = rules.rules_uri ∧
    r.rules_hash = h := by
  unfold update_rules_hash at hok
  split at hok
  · cases hok
  · cases hok
    exact ⟨rfl, rfl, rfl⟩

/-- Witness for C10: the owner resets a non-zero stored hash back to the
all-zero sentinel; owner and URI are untouched and the zero hash is
stored. -/
theorem update_rules_hash_frame_witness :
    update_rules_hash ⟨5, "u", 1 :: List.replicate 31 0⟩ 5 zero32
      = .ok ⟨5, "u", zero32⟩ ∧
    ((⟨5, "u", zero32⟩ : RoutingRules).owner = 5 ∧
     (⟨5, "u", zero32⟩ : RoutingRules).rules_uri = "u" ∧
     (⟨5, "u", zero32⟩ : RoutingRules).rules_hash = zero32) :=
  ⟨by rfl,
   update_rules_hash_frame ⟨5, "u", 1 :: List.replicate 31 0⟩ 5 zero32
     ⟨5, "u", zero32⟩ (by rfl)⟩
